import Mathlib

/-!
Shallow embedding of the PTY terminal-session manager of
`src/hypha_agent_engine/terminal.py` (near-duplicated in
`src/elia_engine/terminal.py`).

The OS-level effects (pty.fork, os.read/os.write on the master fd,
select.select, fcntl ioctls) and the external pyte terminal-emulation
library are not part of the repository's source.  They enter the model
as explicit parameters:

* `pid`, `fd`, and the event-loop timestamp `now` are arguments where the
  Python code obtains them from the OS / event loop;
* whether `select.select` reported data, and what `pyte.Stream.feed`
  left on `pyte.Screen.display` after draining, are captured by a
  `ReadEvent` value.  Everything the repository's own code then does
  with the session record (history update, trimming, snapshot assembly,
  the session table) is translated line by line below.
-/

namespace HyphaTerminal

/-- The whitespace characters of Python's `str.strip()`. -/
def isSpaceChar (c : Char) : Bool :=
  c = ' ' || c = '\t' || c = '\n' || c = '\r' || c = '\x0b' || c = '\x0c'

/-- `isBlankLine s` models Python's `not s.strip()`: `s` consists only of
whitespace (in particular the empty string is blank).  Stated over the
character list underlying the string. -/
def isBlankLine (s : String) : Bool :=
  s.data.all isSpaceChar

/-- The `while all_lines and not all_lines[-1].strip(): all_lines.pop()`
loop of `_get_terminal_output`: remove blank lines from the end. -/
def dropTrailingBlanks (lines : List String) : List String :=
  (lines.reverse.dropWhile isBlankLine).reverse

/-- Python's slice `xs[-k:]` for a natural `k`.  Note the Python quirk:
for `k = 0` the slice `xs[-0:]` is `xs[0:]`, the whole list. -/
def pySliceLast (k : Nat) (xs : List String) : List String :=
  if k = 0 then xs else xs.drop (xs.length - k)

/-- `TerminalSize` pydantic model (defaults 24 rows x 80 cols). -/
structure TerminalSize where
  rows : Nat := 24
  cols : Nat := 80
deriving DecidableEq

/-- The slice of `pyte.Screen` state the repository's code consumes:
`display` (the rendered rows, one string per grid row) and the geometry. -/
structure Screen where
  rows : Nat
  cols : Nat
  display : List String
deriving DecidableEq

/-- `TerminalSession` dataclass. -/
structure TerminalSession where
  fd : Nat
  pid : Nat
  session_id : String
  screen : Screen
  last_activity : Nat
  history : List String
  max_history_lines : Nat := 1000
deriving DecidableEq

/-- `TerminalOutput` pydantic model. -/
structure TerminalOutput where
  data : String
  session_id : String
  truncated : Bool := false
deriving DecidableEq

/-- Error taxonomy.  The code raises `ValueError(f"Session .. not found")`,
the realisation of the spec's `SessionNotFoundError`. -/
inductive TerminalError where
  | sessionNotFound (id : String)
deriving DecidableEq

/-- `TerminalManager`: the `self.sessions` dict, modelled as an
insertion-ordered association list (Python dict semantics). -/
structure TerminalManager where
  sessions : List (String × TerminalSession)
deriving DecidableEq

/-- `session_id in self.sessions` / `self.sessions[session_id]` lookup. -/
def lookupSession (m : TerminalManager) (id : String) : Option TerminalSession :=
  (m.sessions.find? (fun p => p.1 == id)).map Prod.snd

/-- `self.sessions[session_id] = s`: replace in place when the key exists
(Python dicts keep the key's position), else append at the end. -/
def setSession (m : TerminalManager) (id : String) (s : TerminalSession) : TerminalManager :=
  if m.sessions.any (fun p => p.1 == id) then
    ⟨m.sessions.map (fun p => if p.1 == id then (id, s) else p)⟩
  else
    ⟨m.sessions ++ [(id, s)]⟩

/-- `del self.sessions[session_id]`. -/
def removeSession (m : TerminalManager) (id : String) : TerminalManager :=
  ⟨m.sessions.filter (fun p => !(p.1 == id))⟩

/-- A fresh `pyte.Screen(cols, rows)` renders as `rows` lines of
`cols` spaces. -/
def initialDisplay (size : TerminalSize) : List String :=
  List.replicate size.rows (String.mk (List.replicate size.cols ' '))

/-- `TerminalManager.create_session`.  `pid` and `fd` come from
`pty.fork()` and `now` from the event loop; the code performs no
duplicate-id check and simply assigns into the dict. -/
def create_session (m : TerminalManager) (id : String) (size : TerminalSize)
    (pid fd now : Nat) : TerminalManager :=
  setSession m id
    { fd := fd
      pid := pid
      session_id := id
      screen := { rows := size.rows, cols := size.cols, display := initialDisplay size }
      last_activity := now
      history := []
      max_history_lines := 1000 }

/-- `TerminalManager.write_to_terminal`: unknown id raises; otherwise the
bytes go to the fd (external effect) and `last_activity` is updated. -/
def write_to_terminal (m : TerminalManager) (id : String) (data : String)
    (now : Nat) : Except TerminalError TerminalManager :=
  match lookupSession m id with
  | none => .error (.sessionNotFound id)
  | some s =>
      let _ := data
      .ok (setSession m id { s with last_activity := now })

/-- `TerminalManager._get_terminal_output`: combine history with the
current screen display, strip trailing blank lines, then apply the
optional `max_lines` cap (keeping the last `max_lines` lines). -/
def get_terminal_output (session : TerminalSession) (max_lines : Option Nat) :
    TerminalOutput :=
  let all_lines := dropTrailingBlanks (session.history ++ session.screen.display)
  match max_lines with
  | some k =>
      if all_lines.length > k then
        { data := String.intercalate "\n" (pySliceLast k all_lines)
          session_id := session.session_id
          truncated := true }
      else
        { data := String.intercalate "\n" all_lines
          session_id := session.session_id
          truncated := false }
  | none =>
      { data := String.intercalate "\n" all_lines
        session_id := session.session_id
        truncated := false }

/-- What the OS and the pyte library contribute to one `read_from_terminal`
call: either `select.select` reported nothing ready, or the drain loop
produced an empty string, or it drained bytes whose `stream.feed` left
`newDisplay` on the screen. -/
inductive ReadEvent where
  | noneReady
  | drainedEmpty
  | drained (newDisplay : List String)
deriving DecidableEq

/-- The history-trimming step of `read_from_terminal`:
`if len(history) > max: history = history[-max:]`. -/
def trimHistory (cap : Nat) (h : List String) : List String :=
  if h.length > cap then pySliceLast cap h else h

/-- The new display rows a `ReadEvent` contributes. -/
def readEventLines : ReadEvent → List String
  | .drained d => d
  | _ => []

/-- The per-session body of `TerminalManager.read_from_terminal`.
With no data ready (or an empty drain, `if data:` false) the session is
untouched and the current snapshot is returned.  With drained data the
screen becomes `newDisplay`, the ENTIRE current display is appended to
`history` (`session.history.extend(current_display)`), the history is
trimmed to the cap, `last_activity` is set, and the snapshot of the new
state is returned.  (The enclosing `except (OSError, IOError)` clause is
unreachable for these events: the inner drain loop already catches
per-`os.read` errors.) -/
def readSessionStep (session : TerminalSession) (ev : ReadEvent) (now : Nat)
    (max_lines : Option Nat) : TerminalSession × TerminalOutput :=
  match ev with
  | .noneReady => (session, get_terminal_output session max_lines)
  | .drainedEmpty => (session, get_terminal_output session max_lines)
  | .drained d =>
      let scr := { session.screen with display := d }
      let h := trimHistory session.max_history_lines (session.history ++ d)
      let s := { session with screen := scr, history := h, last_activity := now }
      (s, get_terminal_output s max_lines)

/-- `TerminalManager.read_from_terminal`: unknown id raises, otherwise the
session is updated by `readSessionStep` and the snapshot returned. -/
def read_from_terminal (m : TerminalManager) (id : String) (ev : ReadEvent)
    (now : Nat) (max_lines : Option Nat) :
    Except TerminalError (TerminalManager × TerminalOutput) :=
  match lookupSession m id with
  | none => .error (.sessionNotFound id)
  | some s =>
      let r := readSessionStep s ev now max_lines
      .ok (setSession m id r.1, r.2)

/-- `TerminalManager.resize_terminal`: unknown id raises; otherwise the
window-size ioctl (external) and `screen.resize(rows, cols)` run.  The
geometry update is recorded; how the external pyte library reflows
`display` is outside the repository's source and no claim depends on it,
so `display` is carried over unchanged here. -/
def resize_terminal (m : TerminalManager) (id : String) (size : TerminalSize) :
    Except TerminalError TerminalManager :=
  match lookupSession m id with
  | none => .error (.sessionNotFound id)
  | some s =>
      .ok (setSession m id
        { s with screen := { s.screen with rows := size.rows, cols := size.cols } })

/-- `TerminalManager.close_session`: unknown id logs a warning and
returns (no mutation).  Otherwise `os.close`/`os.kill` run inside a
`try/except` that swallows `OSError` and `ProcessLookupError` — whether
the process already exited (`processAlreadyExited`) cannot change the
outcome — and the entry is deleted from the table. -/
def close_session (m : TerminalManager) (id : String)
    (processAlreadyExited : Bool) : TerminalManager :=
  match lookupSession m id with
  | none => m
  | some _ =>
      let _ := processAlreadyExited
      removeSession m id

/-! ### Concrete sample data for instantiating the theorems -/

/-- A small 2x2 screen showing one word. -/
def sampleScreen : Screen :=
  { rows := 2, cols := 2, display := ["hi", "  "] }

/-- A freshly created session with empty history. -/
def sampleSession : TerminalSession :=
  { fd := 3, pid := 42, session_id := "s1", screen := sampleScreen,
    last_activity := 0, history := [], max_history_lines := 1000 }

/-- A one-session table. -/
def sampleManager : TerminalManager :=
  ⟨[("s1", sampleSession)]⟩

/-- A session whose screen shows only blank rows after one line of
history: combined output is three lines before trimming, one after. -/
def blankTailSession : TerminalSession :=
  { fd := 4, pid := 43, session_id := "s2",
    screen := { rows := 2, cols := 1, display := [" ", " "] },
    last_activity := 0, history := ["a"], max_history_lines := 1000 }

/-- A session with two nonblank history lines and an empty display. -/
def twoLineSession : TerminalSession :=
  { fd := 5, pid := 44, session_id := "s3",
    screen := { rows := 0, cols := 1, display := [] },
    last_activity := 0, history := ["a", "b"], max_history_lines := 1000 }

/-! ### Helper lemmas about the session table -/

theorem find?_map_replace (l : List (String × TerminalSession)) (id : String)
    (s : TerminalSession) (h : l.any (fun p => p.1 == id) = true) :
    (l.map (fun p => if p.1 == id then (id, s) else p)).find? (fun p => p.1 == id)
      = some (id, s) := by
  induction l with
  | nil => simp at h
  | cons a t ih =>
    rw [List.map_cons]
    cases hb : (a.1 == id) with
    | true =>
      rw [if_pos rfl]
      exact List.find?_cons_of_pos _ (by simp)
    | false =>
      rw [if_neg (by simp)]
      rw [List.find?_cons_of_neg _ (by simp [hb])]
      apply ih
      simpa [List.any_cons, hb] using h

theorem lookup_setSession_self (m : TerminalManager) (id : String)
    (s : TerminalSession) : lookupSession (setSession m id s) id = some s := by
  by_cases h : m.sessions.any (fun p => p.1 == id) = true
  · rw [setSession, if_pos h, lookupSession]
    show (List.find? (fun p => p.1 == id)
      (m.sessions.map (fun p => if p.1 == id then (id, s) else p))).map Prod.snd
        = some s
    rw [find?_map_replace m.sessions id s h]
    rfl
  · rw [setSession, if_neg h, lookupSession]
    show (List.find? (fun p => p.1 == id)
      (m.sessions ++ [(id, s)])).map Prod.snd = some s
    rw [List.find?_append]
    have hn : m.sessions.find? (fun p => p.1 == id) = none := by
      rw [List.find?_eq_none]
      intro x hx hpx
      exact h (List.any_eq_true.mpr ⟨x, hx, hpx⟩)
    rw [hn]
    simp

theorem lookup_removeSession_self (m : TerminalManager) (id : String) :
    lookupSession (removeSession m id) id = none := by
  have hn : List.find? (fun p => p.1 == id)
      (m.sessions.filter (fun p => !(p.1 == id))) = none := by
    rw [List.find?_eq_none]
    intro x hx hpx
    have h2 := (List.mem_filter.mp hx).2
    rw [hpx] at h2
    simp at h2
  simp only [lookupSession, removeSession]
  rw [hn]
  rfl

theorem length_setSession_of_present (m : TerminalManager) (id : String)
    (s : TerminalSession) (h : (lookupSession m id).isSome) :
    (setSession m id s).sessions.length = m.sessions.length := by
  have hany : m.sessions.any (fun p => p.1 == id) = true := by
    rw [List.any_eq_true]
    unfold lookupSession at h
    have h2 : (m.sessions.find? (fun p => p.1 == id)).isSome := by
      cases hf : m.sessions.find? (fun p => p.1 == id) with
      | none => rw [hf] at h; simp at h
      | some x => simp
    exact List.find?_isSome.mp h2
  simp [setSession, hany]

/-- Decomposition of the trailing-blank-stripping loop: the input splits
into the kept prefix and an all-blank dropped tail, and the kept prefix
ends in a nonblank line (if it is nonempty). -/
theorem dropTrailingBlanks_spec (l : List String) :
    l = dropTrailingBlanks l ++ (l.reverse.takeWhile isBlankLine).reverse ∧
    (∀ x ∈ (l.reverse.takeWhile isBlankLine).reverse, isBlankLine x = true) ∧
    (∀ x, (dropTrailingBlanks l).getLast? = some x → isBlankLine x = false) := by
  refine ⟨?_, ?_, ?_⟩
  · have h1 : l.reverse.takeWhile isBlankLine ++ l.reverse.dropWhile isBlankLine
        = l.reverse := List.takeWhile_append_dropWhile isBlankLine l.reverse
    calc l = l.reverse.reverse := (l.reverse_reverse).symm
      _ = (l.reverse.takeWhile isBlankLine
            ++ l.reverse.dropWhile isBlankLine).reverse := by rw [h1]
      _ = (l.reverse.dropWhile isBlankLine).reverse
            ++ (l.reverse.takeWhile isBlankLine).reverse := by
            rw [List.reverse_append]
  · intro x hx
    exact List.mem_takeWhile_imp (List.mem_reverse.mp hx)
  · intro x hx
    rw [dropTrailingBlanks, List.getLast?_reverse] at hx
    have hm := List.head?_dropWhile_not isBlankLine l.reverse
    rw [hx] at hm
    exact hm

/-! ### Claim theorems -/

/-- Claim C9: a read called without a `max_lines` value always reports
`truncated = false`, whatever the session state and however much output
the combined history-plus-grid holds. -/
theorem read_without_max_lines_never_truncated (s : TerminalSession)
    (ev : ReadEvent) (now : Nat) :
    (readSessionStep s ev now none).2.truncated = false := by
  cases ev <;> simp [readSessionStep, get_terminal_output]

/-- Claim C10: a read that finds no bytes ready on the PTY leaves the
session completely unchanged — history, screen grid and `last_activity`
are identical before and after; the snapshot is computed without
mutation. -/
theorem read_no_data_preserves_session (s : TerminalSession) (now : Nat)
    (max_lines : Option Nat) :
    (readSessionStep s .noneReady now max_lines).1 = s ∧
    (readSessionStep s .noneReady now max_lines).1.history = s.history ∧
    (readSessionStep s .noneReady now max_lines).1.screen = s.screen ∧
    (readSessionStep s .noneReady now max_lines).1.last_activity = s.last_activity := by
  simp [readSessionStep]

/-- Claim C6: for an id not in the session table, `write_to_terminal`,
`read_from_terminal` and `resize_terminal` all fail with the
session-not-found error (the code's `ValueError(f"Session .. not found")`);
the failing call returns no updated table, so the table is unaffected. -/
theorem unknown_id_operations_fail (m : TerminalManager) (id : String)
    (data : String) (now t : Nat) (ev : ReadEvent) (ml : Option Nat)
    (size : TerminalSize) (h : lookupSession m id = none) :
    write_to_terminal m id data now = .error (.sessionNotFound id) ∧
    read_from_terminal m id ev t ml = .error (.sessionNotFound id) ∧
    resize_terminal m id size = .error (.sessionNotFound id) := by
  refine ⟨?_, ?_, ?_⟩ <;>
    simp [write_to_terminal, read_from_terminal, resize_terminal, h]

theorem unknown_id_operations_fail_inst :
    lookupSession ⟨[]⟩ "s1" = none ∧
    write_to_terminal ⟨[]⟩ "s1" "ls" 0 = .error (.sessionNotFound "s1") := by
  refine ⟨by decide, ?_⟩
  exact (unknown_id_operations_fail ⟨[]⟩ "s1" "ls" 0 0 .noneReady none {} (by decide)).1

/-- Claim C5: `close_session` on an unknown id is a warning-only no-op that
leaves the table untouched; on a known id it removes the entry — the
outcome is the same whether or not the process already exited — so that a
subsequent `write`, `read` or `resize` on that id fails with the
session-not-found error. -/
theorem close_session_contract (m : TerminalManager) (id : String)
    (b b' : Bool) (data : String) (now t : Nat) (ev : ReadEvent)
    (ml : Option Nat) (size : TerminalSize) :
    (lookupSession m id = none → close_session m id b = m) ∧
    ((lookupSession m id).isSome →
      close_session m id b = close_session m id b' ∧
      lookupSession (close_session m id b) id = none ∧
      write_to_terminal (close_session m id b) id data now
        = .error (.sessionNotFound id) ∧
      read_from_terminal (close_session m id b) id ev t ml
        = .error (.sessionNotFound id) ∧
      resize_terminal (close_session m id b) id size
        = .error (.sessionNotFound id)) := by
  constructor
  · intro h
    simp [close_session, h]
  · intro h
    obtain ⟨s, hs⟩ := Option.isSome_iff_exists.mp h
    have hc : close_session m id b = removeSession m id := by
      simp [close_session, hs]
    have hc' : close_session m id b' = removeSession m id := by
      simp [close_session, hs]
    have hnone := lookup_removeSession_self m id
    refine ⟨hc.trans hc'.symm, ?_, ?_, ?_, ?_⟩
    · rw [hc]; exact hnone
    · rw [hc]; simp [write_to_terminal, hnone]
    · rw [hc]; simp [read_from_terminal, hnone]
    · rw [hc]; simp [resize_terminal, hnone]

theorem close_session_contract_inst :
    lookupSession (close_session sampleManager "s1" true) "s1" = none := by
  exact ((close_session_contract sampleManager "s1" true false "x" 0 0
    .noneReady none {}).2 (by decide)).2.1

/-- Claim C7: two reads with no intervening write and no new bytes
available succeed and return the same output (hence the same data string)
both times, each being the current combined snapshot of the session rather
than an error or empty result. -/
theorem read_idempotent_no_new_data (m : TerminalManager) (id : String)
    (s : TerminalSession) (t1 t2 : Nat) (ml : Option Nat)
    (h : lookupSession m id = some s) :
    read_from_terminal m id .noneReady t1 ml
      = .ok (setSession m id s, get_terminal_output s ml) ∧
    read_from_terminal (setSession m id s) id .noneReady t2 ml
      = .ok (setSession (setSession m id s) id s, get_terminal_output s ml) := by
  have h2 := lookup_setSession_self m id s
  constructor
  · simp [read_from_terminal, h, readSessionStep]
  · simp [read_from_terminal, h2, readSessionStep]

theorem read_idempotent_no_new_data_inst :
    read_from_terminal sampleManager "s1" .noneReady 1 none
      = .ok (setSession sampleManager "s1" sampleSession,
             get_terminal_output sampleSession none) := by
  exact (read_idempotent_no_new_data sampleManager "s1" sampleSession 1 2 none
    (by decide)).1

/-- Claim C4: a read never lets the history exceed `max_history_lines`
(given a positive cap and a within-cap starting history, as every session
created by this code has), and the retained entries are exactly the most
recent ones — eviction removes a prefix, i.e. the oldest lines, FIFO. -/
theorem history_bounded_fifo (s : TerminalSession) (ev : ReadEvent)
    (now : Nat) (ml : Option Nat) (hcap : 0 < s.max_history_lines)
    (hpre : s.history.length ≤ s.max_history_lines) :
    ((readSessionStep s ev now ml).1.history).length ≤ s.max_history_lines ∧
    (readSessionStep s ev now ml).1.history
      = (s.history ++ readEventLines ev).drop
          ((s.history ++ readEventLines ev).length
            - min (s.history ++ readEventLines ev).length s.max_history_lines) := by
  cases ev with
  | noneReady =>
    refine ⟨hpre, ?_⟩
    simp only [readSessionStep, readEventLines, List.append_nil]
    rw [Nat.min_eq_left hpre]
    simp
  | drainedEmpty =>
    refine ⟨hpre, ?_⟩
    simp only [readSessionStep, readEventLines, List.append_nil]
    rw [Nat.min_eq_left hpre]
    simp
  | drained d =>
    simp only [readSessionStep, readEventLines, trimHistory]
    by_cases hlen : (s.history ++ d).length > s.max_history_lines
    · rw [if_pos hlen]
      rw [pySliceLast, if_neg (Nat.pos_iff_ne_zero.mp hcap)]
      constructor
      · rw [List.length_drop]
        omega
      · rw [Nat.min_eq_right (Nat.le_of_lt hlen)]
    · rw [if_neg hlen]
      constructor
      · omega
      · rw [Nat.min_eq_left (by omega)]
        simp

theorem history_bounded_fifo_inst :
    ((readSessionStep sampleSession (.drained ["a", "b"]) 1 none).1.history).length
      ≤ sampleSession.max_history_lines := by
  exact (history_bounded_fifo sampleSession (.drained ["a", "b"]) 1 none
    (by decide) (by decide)).1

/-- Claim C1 (refutation): after a read drains new bytes, rows that are
still visible in the current grid HAVE been appended to the history — here
the single drained display row ends up both in the history and on the
screen, contradicting the claim that only retired (scrolled-off) rows are
appended. -/
theorem history_append_includes_visible_rows :
    (readSessionStep sampleSession (.drained ["hi"]) 7 none).1.history = ["hi"] ∧
    ¬ (∀ l ∈ (readSessionStep sampleSession (.drained ["hi"]) 7 none).1.history,
        l ∉ (readSessionStep sampleSession (.drained ["hi"]) 7 none).1.screen.display) := by
  constructor
  · decide
  · decide

/-- Claim C1 (amended): a read that drains new bytes appends the ENTIRE
post-feed screen display — rows still visible included — to the history
(here shown below the cap, where no trimming interferes); the screen keeps
exactly those rows. -/
theorem read_appends_full_display_to_history (s : TerminalSession)
    (d : List String) (now : Nat) (ml : Option Nat)
    (h : (s.history ++ d).length ≤ s.max_history_lines) :
    (readSessionStep s (.drained d) now ml).1.history = s.history ++ d ∧
    (readSessionStep s (.drained d) now ml).1.screen.display = d := by
  have hno : ¬ (s.history ++ d).length > s.max_history_lines := by omega
  constructor
  · show trimHistory s.max_history_lines (s.history ++ d) = s.history ++ d
    rw [trimHistory, if_neg hno]
  · rfl

theorem read_appends_full_display_to_history_inst :
    (readSessionStep sampleSession (.drained ["ab"]) 2 none).1.history = ["ab"] := by
  have h := read_appends_full_display_to_history sampleSession ["ab"] 2 none
    (by decide)
  exact h.1.trans (by decide)

/-- Claim C2 (refutation): `create_session` on an id that already maps to a
live session raises nothing and mutates the table: the entry for "s1"
(pid 42) is replaced by the newly spawned session (pid 99). -/
theorem create_session_duplicate_overwrites :
    (lookupSession sampleManager "s1").map TerminalSession.pid = some 42 ∧
    (lookupSession (create_session sampleManager "s1" {} 99 7 5) "s1").map
      TerminalSession.pid = some 99 ∧
    lookupSession (create_session sampleManager "s1" {} 99 7 5) "s1"
      ≠ lookupSession sampleManager "s1" := by
  refine ⟨by decide, by decide, by decide⟩

/-- Claim C2 (amended): `create_session` performs no duplicate check: with
an id already mapping to a live session it silently replaces that table
entry with the newly spawned session, keeping the table size unchanged and
raising no error. -/
theorem create_session_duplicate_replaces_entry (m : TerminalManager)
    (id : String) (size : TerminalSize) (pid fd now : Nat)
    (h : (lookupSession m id).isSome) :
    lookupSession (create_session m id size pid fd now) id
      = some { fd := fd, pid := pid, session_id := id,
               screen := { rows := size.rows, cols := size.cols,
                           display := initialDisplay size },
               last_activity := now, history := [], max_history_lines := 1000 } ∧
    (create_session m id size pid fd now).sessions.length
      = m.sessions.length := by
  simp only [create_session]
  exact ⟨lookup_setSession_self m id _, length_setSession_of_present m id _ h⟩

theorem create_session_duplicate_replaces_entry_inst :
    (create_session sampleManager "s1" {} 99 7 5).sessions.length
      = sampleManager.sessions.length := by
  exact (create_session_duplicate_replaces_entry sampleManager "s1" {} 99 7 5
    (by decide)).2

/-- Claim C3 (refutation): with a combined history-plus-grid output of
three lines before trimming (two trailing blanks) and `max_lines = 2`, the
code returns one line and `truncated = false` — it counts the lines AFTER
trimming trailing blanks, while the claim counts them before, which here
would force `truncated = true` and two returned lines. -/
theorem truncated_flag_counts_after_trimming :
    (blankTailSession.history ++ blankTailSession.screen.display).length = 3 ∧
    get_terminal_output blankTailSession (some 2)
      = { data := "a", session_id := "s2", truncated := false } := by
  refine ⟨by decide, by decide⟩

/-- Claim C3 (amended): for `max_lines = k > 0`, let n be the number of
combined history-plus-grid lines AFTER trimming trailing blank lines: if
n > k the returned data is exactly the last k of those lines (k lines) and
`truncated = true`; if n ≤ k all n lines are returned and
`truncated = false`. -/
theorem max_lines_truncation_after_trimming (s : TerminalSession) (k : Nat)
    (hk : 0 < k) :
    ((dropTrailingBlanks (s.history ++ s.screen.display)).length > k →
      (get_terminal_output s (some k)).truncated = true ∧
      (get_terminal_output s (some k)).data
        = String.intercalate "\n"
            ((dropTrailingBlanks (s.history ++ s.screen.display)).drop
              ((dropTrailingBlanks (s.history ++ s.screen.display)).length - k)) ∧
      ((dropTrailingBlanks (s.history ++ s.screen.display)).drop
          ((dropTrailingBlanks (s.history ++ s.screen.display)).length - k)).length
        = k) ∧
    ((dropTrailingBlanks (s.history ++ s.screen.display)).length ≤ k →
      (get_terminal_output s (some k)).truncated = false ∧
      (get_terminal_output s (some k)).data
        = String.intercalate "\n"
            (dropTrailingBlanks (s.history ++ s.screen.display))) := by
  constructor
  · intro hgt
    have hk0 : ¬ k = 0 := by omega
    refine ⟨?_, ?_, ?_⟩
    · simp [get_terminal_output, hgt]
    · simp [get_terminal_output, hgt, pySliceLast, hk0]
    · rw [List.length_drop]
      omega
  · intro hle
    have hngt : ¬ (dropTrailingBlanks (s.history ++ s.screen.display)).length > k := by
      omega
    constructor <;> simp [get_terminal_output, hngt]

theorem max_lines_truncation_after_trimming_inst :
    (get_terminal_output blankTailSession (some 2)).truncated = false := by
  exact ((max_lines_truncation_after_trimming blankTailSession 2
    (by decide)).2 (by decide)).1

/-- Claim C8 (refutation): when `max_lines` truncation applies, the data
field is NOT the join of all combined (trimmed) lines: with history
["a", "b"] and `max_lines = 1` the data is "b", not the full join. -/
theorem data_not_full_join_under_cap :
    (get_terminal_output twoLineSession (some 1)).data = "b" ∧
    String.intercalate "\n" (dropTrailingBlanks
      (twoLineSession.history ++ twoLineSession.screen.display)) = "a\nb" ∧
    (get_terminal_output twoLineSession (some 1)).data ≠ "a\nb" := by
  refine ⟨by decide, by decide, by decide⟩

/-- Claim C8 (amended): when no `max_lines` truncation applies (the cap is
unspecified, or the trimmed line count is within it), the data field is
obtained from the combined history-and-grid lines by removing the maximal
run of trailing blank (whitespace-only or empty) lines and joining the
rest with newline; under truncation only the last `max_lines` of those
lines are joined. -/
theorem data_joins_trimmed_lines (s : TerminalSession) (ml : Option Nat)
    (h : ml = none ∨ ∃ k, ml = some k ∧
          (dropTrailingBlanks (s.history ++ s.screen.display)).length ≤ k) :
    ∃ kept dropped,
      s.history ++ s.screen.display = kept ++ dropped ∧
      (∀ x ∈ dropped, isBlankLine x = true) ∧
      (∀ x, kept.getLast? = some x → isBlankLine x = false) ∧
      (get_terminal_output s ml).data = String.intercalate "\n" kept := by
  obtain ⟨hdec, hblank, hlast⟩ :=
    dropTrailingBlanks_spec (s.history ++ s.screen.display)
  refine ⟨dropTrailingBlanks (s.history ++ s.screen.display), _,
    hdec, hblank, hlast, ?_⟩
  rcases h with h | ⟨k, hk, hle⟩
  · subst h
    simp [get_terminal_output]
  · subst hk
    have hngt : ¬ (dropTrailingBlanks (s.history ++ s.screen.display)).length > k := by
      omega
    simp [get_terminal_output, hngt]

theorem data_joins_trimmed_lines_inst :
    ∃ kept dropped,
      twoLineSession.history ++ twoLineSession.screen.display = kept ++ dropped ∧
      (∀ x ∈ dropped, isBlankLine x = true) ∧
      (∀ x, kept.getLast? = some x → isBlankLine x = false) ∧
      (get_terminal_output twoLineSession none).data
        = String.intercalate "\n" kept :=
  data_joins_trimmed_lines twoLineSession none (Or.inl rfl)

end HyphaTerminal
